import Mathlib

/-!
Shallow embedding of the statistical evaluation and resampling engine of
broadinstitute/ebola-predictor, together with theorems settling the spec
claims about it.

The embedded source files:
* `src/utils/aggregated_scores.py` — brier score backport, generic percentile
  bootstrap (`score_bootstrap`), and the pooled ranking/scoring loop;
* `src/eval.py` — per-fold mean aggregation (`avg_cal_dis`, `avg_report`,
  `roc_plots` averaging, `avg_conf_mat`).

Numbers are embedded as `ℚ` (the floats involved are exact decimals in all
inputs considered), labels as `ℕ`, fallible code as `Except`/`Option`.
-/

namespace EbolaPredictor

/-- numpy fancy indexing `xs[indices]`: the list of elements of `xs` at the
given positions.  The source only ever indexes with positions drawn from
`[0, len(xs))` (see `score_bootstrap`); out-of-range positions are given the
default value, and theorems that care carry an explicit bound hypothesis. -/
def resample {α : Type} [Inhabited α] (xs : List α) (idx : List ℕ) : List α :=
  idx.map (fun i => xs.getD i default)

instance {ε α : Type} [DecidableEq ε] [DecidableEq α] : DecidableEq (Except ε α)
  | .error e, .error e' => decidable_of_iff (e = e') (by simp)
  | .error _, .ok _ => isFalse (by simp)
  | .ok _, .error _ => isFalse (by simp)
  | .ok a, .ok a' => decidable_of_iff (a = a') (by simp)

/-- Errors that can escape `score_bootstrap`
(`src/utils/aggregated_scores.py`, lines 143-165): an exception raised by the
score function inside the loop, or an `IndexError` from the final percentile
indexing. -/
inductive BootError : Type where
  | scoreError : BootError
  | indexError : BootError
deriving DecidableEq

/-- One iteration of the bootstrap loop
(`src/utils/aggregated_scores.py`, lines 149-158): with `indices` already
drawn, skip the resample if its true labels have fewer than two distinct
values (`len(np.unique(y_true[indices])) < 2`), otherwise append the score of
the resample.  An exception from `score_fun` propagates (`Except` state). -/
def bootStep {α : Type} [Inhabited α] {ε : Type}
    (score_fun : List ℕ → List α → Except ε ℚ)
    (y_true : List ℕ) (y_pred : List α)
    (acc : Except ε (List ℚ)) (indices : List ℕ) : Except ε (List ℚ) :=
  match acc with
  | .error e => .error e
  | .ok scs =>
    if (resample y_true indices).dedup.length < 2 then .ok scs
    else
      match score_fun (resample y_true indices) (resample y_pred indices) with
      | .ok s => .ok (scs ++ [s])
      | .error e => .error e

/-- Function `score_bootstrap` (`src/utils/aggregated_scores.py`, lines 143-165).
The random draws of the loop (`rng.random_integers(0, len(y_pred)-1,
len(y_pred))` per iteration) are passed in explicitly as `draws`, one index
list per iteration.  After the loop the retained scores are sorted ascending
(`np.sort`; modelled by `List.insertionSort`, extensionally equal to any
comparison sort) and the percentile positions `int(pvalue*M)` and
`int((1-pvalue)*M)` are read; Python `int()` truncation agrees with `⌊·⌋₊`
for the non-negative products arising from `0 ≤ pvalue ≤ 1` (theorems carry
that bound; numpy's wrap-around for indices below `-1` is not modelled).
An out-of-range position is numpy's `IndexError`. -/
def score_bootstrap {α : Type} [Inhabited α] {ε : Type}
    (score_fun : List ℕ → List α → Except ε ℚ)
    (y_true : List ℕ) (y_pred : List α) (pvalue : ℚ)
    (draws : List (List ℕ)) : Except BootError (ℚ × ℚ) :=
  match draws.foldl (bootStep score_fun y_true y_pred) (.ok []) with
  | .error _ => .error .scoreError
  | .ok bootstrapped_scores =>
    let sorted_scores := List.insertionSort (· ≤ ·) bootstrapped_scores
    match sorted_scores[(⌊pvalue * (sorted_scores.length : ℚ)⌋₊ : ℕ)]?,
          sorted_scores[(⌊(1 - pvalue) * (sorted_scores.length : ℚ)⌋₊ : ℕ)]? with
    | some confidence_lower, some confidence_upper =>
        .ok (confidence_lower, confidence_upper)
    | _, _ => .error .indexError

/-- The scores retained by the bootstrap loop for a total score function:
one score per drawn resample whose true labels contain at least two distinct
values, in iteration order. -/
def retainedScores {α : Type} [Inhabited α]
    (f : List ℕ → List α → ℚ) (y_true : List ℕ) (y_pred : List α)
    (draws : List (List ℕ)) : List ℚ :=
  (draws.filter (fun d => decide (¬ (resample y_true d).dedup.length < 2))).map
    (fun d => f (resample y_true d) (resample y_pred d))

/-- The retained scores, sorted ascending. -/
def sortedScores {α : Type} [Inhabited α]
    (f : List ℕ → List α → ℚ) (y_true : List ℕ) (y_pred : List α)
    (draws : List (List ℕ)) : List ℚ :=
  List.insertionSort (· ≤ ·) (retainedScores f y_true y_pred draws)

theorem bootStep_foldl_ok {α : Type} [Inhabited α] {ε : Type}
    (f : List ℕ → List α → ℚ) (y_true : List ℕ) (y_pred : List α) :
    ∀ (draws : List (List ℕ)) (acc : List ℚ),
      draws.foldl (bootStep (fun a b => (.ok (f a b) : Except ε ℚ)) y_true y_pred)
          (.ok acc)
        = .ok (acc ++ retainedScores f y_true y_pred draws) := by
  intro draws
  induction draws with
  | nil => intro acc; simp [retainedScores]
  | cons d rest ih =>
    intro acc
    by_cases h : (resample y_true d).dedup.length < 2
    · simp only [List.foldl_cons, bootStep, if_pos h, ih, retainedScores,
        List.filter_cons]
      simp [h]
    · simp only [List.foldl_cons, bootStep, if_neg h, ih, retainedScores,
        List.filter_cons]
      simp [h]

/-- For a total score function, `score_bootstrap` reduces to reading the two
percentile positions of the sorted retained scores. -/
theorem score_bootstrap_eq {α : Type} [Inhabited α] {ε : Type}
    (f : List ℕ → List α → ℚ) (y_true : List ℕ) (y_pred : List α)
    (pvalue : ℚ) (draws : List (List ℕ)) :
    score_bootstrap (fun a b => (.ok (f a b) : Except ε ℚ)) y_true y_pred pvalue draws
      = (match (sortedScores f y_true y_pred draws)[(⌊pvalue *
            ((sortedScores f y_true y_pred draws).length : ℚ)⌋₊ : ℕ)]?,
            (sortedScores f y_true y_pred draws)[(⌊(1 - pvalue) *
            ((sortedScores f y_true y_pred draws).length : ℚ)⌋₊ : ℕ)]? with
        | some lo, some hi => .ok (lo, hi)
        | _, _ => .error .indexError) := by
  unfold score_bootstrap
  rw [bootStep_foldl_ok f y_true y_pred draws []]
  rfl

/-- Errors raised by the metric functions (`ValueError` in the source):
`emptyTrue` for `y_true.max()` on an empty array, `lengthMismatch` from
`check_consistent_length`, `notBinary` from the two-distinct-labels check,
and the two probability range checks. -/
inductive MetricError : Type where
  | emptyTrue : MetricError
  | lengthMismatch : MetricError
  | notBinary : MetricError
  | probGreaterOne : MetricError
  | probLessZero : MetricError
deriving DecidableEq

/-- Mapping `np.array(y_true == pos_label, int)` with
`pos_label = y_true.max()` (`src/utils/aggregated_scores.py`, lines 136-138):
each label is mapped to 1 if it equals the maximum label present, else 0.
Empty input is mapped to the empty list (the source raises before using it;
see `brier_score_loss`). -/
def mappedLabels (y_true : List ℕ) : List ℚ :=
  match y_true.max? with
  | none => []
  | some pos_label => y_true.map (fun v => if v = pos_label then 1 else 0)

/-- Function `brier_score_loss` (`src/utils/aggregated_scores.py`, lines 80-140).
Order of the source: `y_true.max()` (raises on empty input), mapping against
the positive label, then `_check_binary_probabilistic_predictions` (lines
62-78): consistent lengths, exactly two distinct mapped labels, probability
range checks `y_prob.max() > 1` and `y_prob.min() < 0`.  On success
`label_binarize(y_true, [0, 1])[:, 0]` is the identity on the 0/1-valued
mapped labels, and the result is `np.average((y_true - y_prob) ** 2)`. -/
def brier_score_loss (y_true : List ℕ) (y_prob : List ℚ) : Except MetricError ℚ :=
  if y_true = [] then .error .emptyTrue
  else
    let y := mappedLabels y_true
    if y_true.length ≠ y_prob.length then .error .lengthMismatch
    else if y.dedup.length ≠ 2 then .error .notBinary
    else if y_prob.any (fun q => decide (1 < q)) then .error .probGreaterOne
    else if y_prob.any (fun q => decide (q < 0)) then .error .probLessZero
    else .ok (((y.zip y_prob).map (fun t => (t.1 - t.2) ^ 2)).sum / (y_prob.length : ℚ))

/-- Model of `sklearn.metrics.precision_score` for binary labels with
positive label 1, per spec §4.2: `hit / (hit + false_alarm)`, defined as 0
when there are no predicted positives (sklearn returns 0 with a warning). -/
def precision_score (y_true y_pred : List ℕ) : ℚ :=
  let tp := ((y_true.zip y_pred).filter (fun t => t.1 == 1 && t.2 == 1)).length
  let fp := ((y_true.zip y_pred).filter (fun t => t.1 != 1 && t.2 == 1)).length
  if tp + fp = 0 then 0 else (tp : ℚ) / ((tp : ℚ) + (fp : ℚ))

/-- Model of `sklearn.metrics.recall_score` for binary labels with positive
label 1, per spec §4.2: `hit / (hit + miss)`, defined as 0 when there are no
true positives in the reference labels. -/
def recall_score (y_true y_pred : List ℕ) : ℚ :=
  let tp := ((y_true.zip y_pred).filter (fun t => t.1 == 1 && t.2 == 1)).length
  let fn := ((y_true.zip y_pred).filter (fun t => t.1 == 1 && t.2 != 1)).length
  if tp + fn = 0 then 0 else (tp : ℚ) / ((tp : ℚ) + (fn : ℚ))

/-- Model of `sklearn.metrics.f1_score` for binary labels with positive
label 1, per spec §4.2: harmonic mean of precision and recall, 0 when both
are 0. -/
def f1_score (y_true y_pred : List ℕ) : ℚ :=
  let p := precision_score y_true y_pred
  let r := recall_score y_true y_pred
  if p + r = 0 then 0 else 2 * p * r / (p + r)

/-- Model of `sklearn.metrics.roc_auc_score`, per spec §4.3: the probability
that a randomly chosen positive case scores higher than a randomly chosen
negative one (Mann–Whitney U, ties counted half); raises when only one class
is present. -/
def roc_auc_score (y_true : List ℕ) (y_score : List ℚ) : Except MetricError ℚ :=
  let pos := ((y_true.zip y_score).filter (fun t => t.1 == 1)).map Prod.snd
  let neg := ((y_true.zip y_score).filter (fun t => t.1 != 1)).map Prod.snd
  if pos.length = 0 ∨ neg.length = 0 then .error .notBinary
  else
    .ok ((pos.map (fun a =>
          (neg.map (fun b => if b < a then (1 : ℚ) else if b = a then 1/2 else 0)).sum)).sum
        / ((pos.length : ℚ) * (neg.length : ℚ)))

/-- Binarization `pb = np.array([int(0.5 < x) for x in p])`
(`src/utils/aggregated_scores.py`, line 288): binary prediction 1 iff the
probability strictly exceeds 0.5. -/
def binarize (p : List ℚ) : List ℕ :=
  p.map (fun x => if (1 : ℚ)/2 < x then 1 else 0)

/-- One candidate fold as seen by `src/eval.py`: the existence of its three
artifacts (`testing-data-<id>.csv`, `<prefix>-params-<id>`,
`training-data-completed-<id>.csv`) and the values `module.eval` returns for
it in each evaluation mode.  Per-class values (precision/recall/F1 arrays
indexed by the two classes) are pairs. -/
structure Fold : Type where
  test_exists : Bool
  params_exists : Bool
  train_exists : Bool
  cal : ℚ
  dis : ℚ
  prec : ℚ × ℚ
  recl : ℚ × ℚ
  f1v : ℚ × ℚ
  roc_auc : ℚ
  n_hit : ℚ
  n_false_alarm : ℚ
  n_miss : ℚ
  n_correct_rej : ℚ
deriving DecidableEq

/-- The completeness check repeated in every aggregator of `src/eval.py`:
`os.path.exists(testfile) and os.path.exists(pfile) and
os.path.exists(trainfile)`. -/
def usable (f : Fold) : Bool :=
  f.test_exists && f.params_exists && f.train_exists

/-- The only failure the aggregators of `src/eval.py` can produce themselves:
the `ZeroDivisionError` raised by the final `total / count` when no fold
passed the completeness check. -/
inductive EvalError : Type where
  | zeroDivisionError : EvalError
deriving DecidableEq

/-- Accumulator loop of `avg_cal_dis` (`src/eval.py`, lines 14-28):
`(count, total_cal, total_dis)` over the folds in order. -/
def calDisAcc (folds : List Fold) : ℕ × ℚ × ℚ :=
  folds.foldl
    (fun acc f =>
      if usable f then (acc.1 + 1, acc.2.1 + f.cal, acc.2.2 + f.dis) else acc)
    (0, 0, 0)

/-- Function `avg_cal_dis` (`src/eval.py`, lines 11-34): sum calibration and
discrimination over complete folds, then divide by the count (raising
`ZeroDivisionError` when it is 0). -/
def avg_cal_dis (folds : List Fold) : Except EvalError (ℚ × ℚ) :=
  let a := calDisAcc folds
  if a.1 = 0 then .error .zeroDivisionError
  else .ok (a.2.1 / (a.1 : ℚ), a.2.2 / (a.1 : ℚ))

/-- Accumulator loop of `avg_report` (`src/eval.py`, lines 56-72):
`(count, total_prec, total_rec, total_f1)` with per-class pairs. -/
def reportAcc (folds : List Fold) : ℕ × (ℚ × ℚ) × (ℚ × ℚ) × (ℚ × ℚ) :=
  folds.foldl
    (fun acc f =>
      if usable f then
        (acc.1 + 1, acc.2.1 + f.prec, acc.2.2.1 + f.recl, acc.2.2.2 + f.f1v)
      else acc)
    (0, (0, 0), (0, 0), (0, 0))

/-- Function `avg_report` (`src/eval.py`, lines 53-82): sum per-class precision,
recall and F1 over complete folds, then divide by the count. -/
def avg_report (folds : List Fold) :
    Except EvalError ((ℚ × ℚ) × (ℚ × ℚ) × (ℚ × ℚ)) :=
  let a := reportAcc folds
  if a.1 = 0 then .error .zeroDivisionError
  else
    .ok ((a.2.1.1 / (a.1 : ℚ), a.2.1.2 / (a.1 : ℚ)),
         (a.2.2.1.1 / (a.1 : ℚ), a.2.2.1.2 / (a.1 : ℚ)),
         (a.2.2.2.1 / (a.1 : ℚ), a.2.2.2.2 / (a.1 : ℚ)))

/-- Accumulator loop of `roc_plots` (`src/eval.py`, lines 87-100):
`(count, total_roc_auc)`. -/
def rocAcc (folds : List Fold) : ℕ × ℚ :=
  folds.foldl
    (fun acc f => if usable f then (acc.1 + 1, acc.2 + f.roc_auc) else acc)
    (0, 0)

/-- The averaging part of `roc_plots` (`src/eval.py`, line 101):
`ave_roc_auc = total_roc_auc / count`. -/
def avg_roc_auc (folds : List Fold) : Except EvalError ℚ :=
  let a := rocAcc folds
  if a.1 = 0 then .error .zeroDivisionError else .ok (a.2 / (a.1 : ℚ))

/-- Accumulator loop of `avg_conf_mat` (`src/eval.py`, lines 110-128):
`(count, total_n_hit, total_n_false_alarm, total_n_miss,
total_n_correct_rej)`. -/
def confMatAcc (folds : List Fold) : ℕ × ℚ × ℚ × ℚ × ℚ :=
  folds.foldl
    (fun acc f =>
      if usable f then
        (acc.1 + 1, acc.2.1 + f.n_hit, acc.2.2.1 + f.n_false_alarm,
         acc.2.2.2.1 + f.n_miss, acc.2.2.2.2 + f.n_correct_rej)
      else acc)
    (0, 0, 0, 0, 0)

/-- Function `avg_conf_mat` (`src/eval.py`, lines 107-138): the four confusion totals
divided by `1.0 * count` (real division). -/
def avg_conf_mat (folds : List Fold) : Except EvalError (ℚ × ℚ × ℚ × ℚ) :=
  let a := confMatAcc folds
  if a.1 = 0 then .error .zeroDivisionError
  else
    .ok (a.2.1 / (a.1 : ℚ), a.2.2.1 / (a.1 : ℚ),
         a.2.2.2.1 / (a.1 : ℚ), a.2.2.2.2 / (a.1 : ℚ))

/-- Configuration of the pooled scoring loop
(`src/utils/aggregated_scores.py`, lines 208-244), in `PRED` index mode. -/
structure ScoreConfig : Type where
  excluded_predictors : List String
  index_names : List String
  extra_tests : List String
  f1_min : ℚ
  scores : List String
  bootstrap : Bool
  pvalue : ℚ

/-- One line of the ranking file as consumed by the loop
(`src/utils/aggregated_scores.py`, lines 250-287): the path pieces of
`parts[1]`, the predictor name `parts[2]`, the fold-average F1 `parts[4]`,
the `(Y, P)` rows of the aggregated predictions the loop reads for this
entry, and the random draws consumed by its successive bootstrap calls. -/
structure RankEntry : Type where
  mdl_pieces : List String
  pred : String
  f1_mean : ℚ
  predictions : List (ℕ × ℚ)
  draws : List (List (List ℕ))

/-- One cell of the score line as written by the branches of
`src/utils/aggregated_scores.py`, lines 292-331: the optional bootstrap
bounds `(lo, hi)` and the point estimate.  `none` is an uncaught exception
(a failing point-estimate computation or a failing bootstrap call). -/
def scoreCell (cfg : ScoreConfig) (name : String) (y : List ℕ) (p : List ℚ)
    (pb : List ℕ) (block : List (List ℕ)) : Option ((Option (ℚ × ℚ)) × ℚ) :=
  if name = "precision" then
    let point := precision_score y pb
    if cfg.bootstrap then
      match score_bootstrap
          (fun a b => (.ok (precision_score a b) : Except Unit ℚ)) y pb
          cfg.pvalue block with
      | .ok lohi => some (some lohi, point)
      | .error _ => none
    else some (none, point)
  else if name = "recall" then
    let point := recall_score y pb
    if cfg.bootstrap then
      match score_bootstrap
          (fun a b => (.ok (recall_score a b) : Except Unit ℚ)) y pb
          cfg.pvalue block with
      | .ok lohi => some (some lohi, point)
      | .error _ => none
    else some (none, point)
  else if name = "f1" then
    let point := f1_score y pb
    if cfg.bootstrap then
      match score_bootstrap
          (fun a b => (.ok (f1_score a b) : Except Unit ℚ)) y pb
          cfg.pvalue block with
      | .ok lohi => some (some lohi, point)
      | .error _ => none
    else some (none, point)
  else if name = "brier" then
    match brier_score_loss y p with
    | .error _ => none
    | .ok point =>
      if cfg.bootstrap then
        match score_bootstrap brier_score_loss y p cfg.pvalue block with
        | .ok lohi => some (some lohi, point)
        | .error _ => none
      else some (none, point)
  else if name = "auc" then
    match roc_auc_score y p with
    | .error _ => none
    | .ok point =>
      if cfg.bootstrap then
        match score_bootstrap roc_auc_score y p cfg.pvalue block with
        | .ok lohi => some (some lohi, point)
        | .error _ => none
      else some (none, point)
  else none

/-- The score names the `if/elif` chain of the loop recognizes. -/
def knownScores : List String := ["precision", "recall", "f1", "brier", "auc"]

/-- Loop `for score in scores` (`src/utils/aggregated_scores.py`, lines 291-331):
one cell per recognized score name; an unrecognized name appends nothing.  In
bootstrap mode each recognized score consumes the next block of random draws.
`none` is an uncaught exception aborting the whole run. -/
def scoreCells (cfg : ScoreConfig) (y : List ℕ) (p : List ℚ) (pb : List ℕ) :
    List String → List (List (List ℕ)) → Option (List ((Option (ℚ × ℚ)) × ℚ))
  | [], _ => some []
  | s :: rest, blocks =>
    if s ∈ knownScores then
      match scoreCell cfg s y p pb (blocks.headD []) with
      | none => none
      | some cell =>
        match scoreCells cfg y p pb rest
            (if cfg.bootstrap then blocks.tail else blocks) with
        | none => none
        | some cells => some (cell :: cells)
    else scoreCells cfg y p pb rest blocks

/-- Outcome of one iteration of the ranking loop for one entry. -/
inductive EntryResult : Type where
  | skipped : EntryResult
  | emitted : List ((Option (ℚ × ℚ)) × ℚ) → EntryResult
  | crashed : EntryResult
deriving DecidableEq

/-- One iteration of the ranking loop
(`src/utils/aggregated_scores.py`, lines 250-333) in `PRED` index mode
(`idx = pred`): `continue` on an excluded predictor, on an index name not in
`index_names`, on a missing extra test, on `f1_mean < f1_min`, and on empty
aggregated predictions (`if len(y) == 0: continue`); otherwise binarize the
probabilities and compute the score cells. -/
def processEntry (cfg : ScoreConfig) (e : RankEntry) : EntryResult :=
  if e.pred ∈ cfg.excluded_predictors then .skipped
  else if e.pred ∉ cfg.index_names then .skipped
  else if cfg.extra_tests.any (fun ex => !(e.mdl_pieces.contains ex)) then .skipped
  else if cfg.f1_min ≤ e.f1_mean then
    let y := e.predictions.map Prod.fst
    let p := e.predictions.map Prod.snd
    if y.length = 0 then .skipped
    else
      let pb := binarize p
      match scoreCells cfg y p pb cfg.scores e.draws with
      | some cells => .emitted cells
      | none => .crashed
  else .skipped

/-- The whole ranking loop: the list of emitted score lines, `none` when an
uncaught exception aborts the run. -/
def score_lines (cfg : ScoreConfig) :
    List RankEntry → Option (List (List ((Option (ℚ × ℚ)) × ℚ)))
  | [] => some []
  | e :: rest =>
    match processEntry cfg e with
    | .skipped => score_lines cfg rest
    | .crashed => none
    | .emitted cells => (score_lines cfg rest).map (cells :: ·)

theorem calDisAcc_eq_filter (folds : List Fold) :
    calDisAcc folds
      = ((folds.filter usable).length,
         ((folds.filter usable).map Fold.cal).sum,
         ((folds.filter usable).map Fold.dis).sum) := by
  have go : ∀ (fs : List Fold) (c : ℕ) (tc td : ℚ),
      fs.foldl
          (fun acc f =>
            if usable f then (acc.1 + 1, acc.2.1 + f.cal, acc.2.2 + f.dis) else acc)
          (c, tc, td)
        = (c + (fs.filter usable).length,
           tc + ((fs.filter usable).map Fold.cal).sum,
           td + ((fs.filter usable).map Fold.dis).sum) := by
    intro fs
    induction fs with
    | nil => intro c tc td; simp
    | cons f rest ih =>
      intro c tc td
      by_cases h : usable f
      · simp only [List.foldl_cons, h, if_true, ih, List.filter_cons, if_pos h,
          List.length_cons, List.map_cons, List.sum_cons]
        refine Prod.ext (by omega) (Prod.ext (by ring) (by ring))
      · simp only [List.foldl_cons, h, if_false, ih, List.filter_cons,
          Bool.false_eq_true, if_neg h]
  simpa using go folds 0 0 0

theorem reportAcc_eq_filter (folds : List Fold) :
    reportAcc folds
      = ((folds.filter usable).length,
         ((folds.filter usable).map Fold.prec).sum,
         ((folds.filter usable).map Fold.recl).sum,
         ((folds.filter usable).map Fold.f1v).sum) := by
  have go : ∀ (fs : List Fold) (c : ℕ) (tp tr tf : ℚ × ℚ),
      fs.foldl
          (fun acc f =>
            if usable f then
              (acc.1 + 1, acc.2.1 + f.prec, acc.2.2.1 + f.recl, acc.2.2.2 + f.f1v)
            else acc)
          (c, tp, tr, tf)
        = (c + (fs.filter usable).length,
           tp + ((fs.filter usable).map Fold.prec).sum,
           tr + ((fs.filter usable).map Fold.recl).sum,
           tf + ((fs.filter usable).map Fold.f1v).sum) := by
    intro fs
    induction fs with
    | nil => intro c tp tr tf; simp
    | cons f rest ih =>
      intro c tp tr tf
      by_cases h : usable f
      · simp only [List.foldl_cons, h, if_true, ih, List.filter_cons, if_pos h,
          List.length_cons, List.map_cons, List.sum_cons]
        refine Prod.ext (by omega) (Prod.ext (by ring) (Prod.ext (by ring) (by ring)))
      · simp only [List.foldl_cons, h, if_false, ih, List.filter_cons,
          Bool.false_eq_true, if_neg h]
  simpa using go folds 0 (0, 0) (0, 0) (0, 0)

theorem rocAcc_eq_filter (folds : List Fold) :
    rocAcc folds
      = ((folds.filter usable).length,
         ((folds.filter usable).map Fold.roc_auc).sum) := by
  have go : ∀ (fs : List Fold) (c : ℕ) (t : ℚ),
      fs.foldl (fun acc f => if usable f then (acc.1 + 1, acc.2 + f.roc_auc) else acc)
          (c, t)
        = (c + (fs.filter usable).length,
           t + ((fs.filter usable).map Fold.roc_auc).sum) := by
    intro fs
    induction fs with
    | nil => intro c t; simp
    | cons f rest ih =>
      intro c t
      by_cases h : usable f
      · simp only [List.foldl_cons, h, if_true, ih, List.filter_cons, if_pos h,
          List.length_cons, List.map_cons, List.sum_cons]
        refine Prod.ext (by omega) (by ring)
      · simp only [List.foldl_cons, h, if_false, ih, List.filter_cons,
          Bool.false_eq_true, if_neg h]
  simpa using go folds 0 0

theorem confMatAcc_eq_filter (folds : List Fold) :
    confMatAcc folds
      = ((folds.filter usable).length,
         ((folds.filter usable).map Fold.n_hit).sum,
         ((folds.filter usable).map Fold.n_false_alarm).sum,
         ((folds.filter usable).map Fold.n_miss).sum,
         ((folds.filter usable).map Fold.n_correct_rej).sum) := by
  have go : ∀ (fs : List Fold) (c : ℕ) (t1 t2 t3 t4 : ℚ),
      fs.foldl
          (fun acc f =>
            if usable f then
              (acc.1 + 1, acc.2.1 + f.n_hit, acc.2.2.1 + f.n_false_alarm,
               acc.2.2.2.1 + f.n_miss, acc.2.2.2.2 + f.n_correct_rej)
            else acc)
          (c, t1, t2, t3, t4)
        = (c + (fs.filter usable).length,
           t1 + ((fs.filter usable).map Fold.n_hit).sum,
           t2 + ((fs.filter usable).map Fold.n_false_alarm).sum,
           t3 + ((fs.filter usable).map Fold.n_miss).sum,
           t4 + ((fs.filter usable).map Fold.n_correct_rej).sum) := by
    intro fs
    induction fs with
    | nil => intro c t1 t2 t3 t4; simp
    | cons f rest ih =>
      intro c t1 t2 t3 t4
      by_cases h : usable f
      · simp only [List.foldl_cons, h, if_true, ih, List.filter_cons, if_pos h,
          List.length_cons, List.map_cons, List.sum_cons]
        refine Prod.ext (by omega)
          (Prod.ext (by ring) (Prod.ext (by ring) (Prod.ext (by ring) (by ring))))
      · simp only [List.foldl_cons, h, if_false, ih, List.filter_cons,
          Bool.false_eq_true, if_neg h]
  simpa using go folds 0 0 0 0 0

theorem sortedScores_length {α : Type} [Inhabited α]
    (f : List ℕ → List α → ℚ) (y_true : List ℕ) (y_pred : List α)
    (draws : List (List ℕ)) :
    (sortedScores f y_true y_pred draws).length
      = (retainedScores f y_true y_pred draws).length :=
  List.length_insertionSort _ _

theorem percentile_indices_lt (pvalue : ℚ) (M : ℕ) (hM : 1 ≤ M)
    (hp0 : 0 < pvalue) (hp : pvalue ≤ 1/2) :
    ⌊pvalue * (M : ℚ)⌋₊ < M ∧ ⌊(1 - pvalue) * (M : ℚ)⌋₊ < M
      ∧ ⌊pvalue * (M : ℚ)⌋₊ ≤ ⌊(1 - pvalue) * (M : ℚ)⌋₊ := by
  have hMpos : (0 : ℚ) < (M : ℚ) := by exact_mod_cast hM
  have hp1 : pvalue < 1 := lt_of_le_of_lt hp (by norm_num)
  refine ⟨?_, ?_, ?_⟩
  · exact (Nat.floor_lt (by positivity)).mpr
      (mul_lt_of_lt_one_left hMpos hp1)
  · have h1p : (1 : ℚ) - pvalue < 1 := by linarith
    have h1p0 : (0 : ℚ) ≤ 1 - pvalue := by linarith
    exact (Nat.floor_lt (by positivity)).mpr
      (mul_lt_of_lt_one_left hMpos h1p)
  · exact Nat.floor_le_floor
      (mul_le_mul_of_nonneg_right (by linarith) (le_of_lt hMpos))

theorem sortedScores_getD_mono {α : Type} [Inhabited α]
    (f : List ℕ → List α → ℚ) (y_true : List ℕ) (y_pred : List α)
    (draws : List (List ℕ)) {i j : ℕ} (hij : i ≤ j)
    (hj : j < (sortedScores f y_true y_pred draws).length) :
    (sortedScores f y_true y_pred draws).getD i 0
      ≤ (sortedScores f y_true y_pred draws).getD j 0 := by
  have hi : i < (sortedScores f y_true y_pred draws).length := lt_of_le_of_lt hij hj
  have hs : List.Sorted (· ≤ ·) (sortedScores f y_true y_pred draws) :=
    List.sorted_insertionSort _ _
  have := hs.rel_get_of_le (a := ⟨i, hi⟩) (b := ⟨j, hj⟩) hij
  rw [List.getD_eq_getElem?_getD, List.getElem?_eq_getElem hi,
    List.getD_eq_getElem?_getD, List.getElem?_eq_getElem hj]
  simpa [List.get_eq_getElem] using this

theorem score_bootstrap_ok_getD {α : Type} [Inhabited α] {ε : Type}
    (f : List ℕ → List α → ℚ) (y_true : List ℕ) (y_pred : List α)
    (pvalue : ℚ) (draws : List (List ℕ))
    (h1 : ⌊pvalue * ((retainedScores f y_true y_pred draws).length : ℚ)⌋₊
      < (retainedScores f y_true y_pred draws).length)
    (h2 : ⌊(1 - pvalue) * ((retainedScores f y_true y_pred draws).length : ℚ)⌋₊
      < (retainedScores f y_true y_pred draws).length) :
    score_bootstrap (fun a b => (.ok (f a b) : Except ε ℚ)) y_true y_pred pvalue draws
      = .ok ((sortedScores f y_true y_pred draws).getD
               (⌊pvalue * ((retainedScores f y_true y_pred draws).length : ℚ)⌋₊) 0,
             (sortedScores f y_true y_pred draws).getD
               (⌊(1 - pvalue) * ((retainedScores f y_true y_pred draws).length : ℚ)⌋₊) 0) := by
  rw [score_bootstrap_eq, sortedScores_length]
  have h1' : ⌊pvalue * ((retainedScores f y_true y_pred draws).length : ℚ)⌋₊
      < (sortedScores f y_true y_pred draws).length := by
    rw [sortedScores_length]; exact h1
  have h2' : ⌊(1 - pvalue) * ((retainedScores f y_true y_pred draws).length : ℚ)⌋₊
      < (sortedScores f y_true y_pred draws).length := by
    rw [sortedScores_length]; exact h2
  rw [List.getElem?_eq_getElem h1', List.getElem?_eq_getElem h2']
  rw [List.getD_eq_getElem?_getD, List.getElem?_eq_getElem h1',
    List.getD_eq_getElem?_getD, List.getElem?_eq_getElem h2']
  rfl

/-- Claim C1 (confirmed).  For a scalar metric function `f`, parallel
label/prediction arrays of length `N ≥ 1`, a two-tailed error rate
`0 < pvalue ≤ 1/2` and a sequence of per-iteration draws of `N` indices
each taken from `[0, N)` (with replacement), `score_bootstrap` discards
every resample whose true labels have fewer than two distinct values, sorts
the `M` retained scores ascending, and returns the pair
`(sorted[⌊pvalue·M⌋], sorted[⌊(1-pvalue)·M⌋])` (stated for `M ≥ 1`, where
the positions exist). -/
theorem score_bootstrap_percentile {α : Type} [Inhabited α]
    (f : List ℕ → List α → ℚ) (y_true : List ℕ) (y_pred : List α)
    (pvalue : ℚ) (draws : List (List ℕ))
    (_hlen : y_true.length = y_pred.length) (_hN : 1 ≤ y_pred.length)
    (_hdraws : ∀ d ∈ draws, d.length = y_pred.length ∧ ∀ i ∈ d, i < y_pred.length)
    (hp0 : 0 < pvalue) (hp : pvalue ≤ 1/2)
    (hM : 1 ≤ (retainedScores f y_true y_pred draws).length) :
    score_bootstrap (fun a b => (.ok (f a b) : Except Unit ℚ)) y_true y_pred pvalue draws
      = .ok ((sortedScores f y_true y_pred draws).getD
               (⌊pvalue * ((retainedScores f y_true y_pred draws).length : ℚ)⌋₊) 0,
             (sortedScores f y_true y_pred draws).getD
               (⌊(1 - pvalue) * ((retainedScores f y_true y_pred draws).length : ℚ)⌋₊) 0) := by
  obtain ⟨h1, h2, _⟩ := percentile_indices_lt pvalue
    (retainedScores f y_true y_pred draws).length hM hp0 hp
  exact score_bootstrap_ok_getD f y_true y_pred pvalue draws h1 h2

/-- Witness for C1: a concrete run.  Labels `[0,1]`, predictions `[0,1]`,
`pvalue = 1/4`, three draws of which the third (`[0,0]`) is discarded for
having a single class; the two retained precision scores are both 1, and the
returned interval is `(sorted[⌊1/4·2⌋], sorted[⌊3/4·2⌋]) = (1, 1)`. -/
theorem score_bootstrap_percentile_witness :
    score_bootstrap (fun a b => (.ok (precision_score a b) : Except Unit ℚ))
        [0, 1] [0, 1] (1/4) [[0, 1], [1, 0], [0, 0]] = .ok (1, 1) := by
  have h := score_bootstrap_percentile precision_score [0, 1] [0, 1] (1/4)
    [[0, 1], [1, 0], [0, 0]] rfl (by norm_num) (by decide) (by norm_num)
    (by norm_num) (by decide)
  rw [h]
  with_unfolding_all decide

/-- Counterexample to claim C2: a bootstrap call that retains exactly one
resample (fewer than 2) does not fail at all — it returns the degenerate
interval `(1, 1)`; there is no `InsufficientSamplesError` anywhere in the
code. -/
theorem score_bootstrap_degenerate_interval_cex :
    (retainedScores precision_score [0, 1] [0, 1] [[0, 0], [0, 1]]).length = 1
    ∧ score_bootstrap (fun a b => (.ok (precision_score a b) : Except Unit ℚ))
        [0, 1] [0, 1] (1/20) [[0, 0], [0, 1]] = .ok (1, 1) := by
  constructor
  · with_unfolding_all decide
  · with_unfolding_all decide

/-- Claim C2 (corrected).  When no resample is retained, `score_bootstrap`
fails with an out-of-range indexing error (numpy `IndexError`), and when
exactly one resample is retained and `0 < pvalue < 1`, it returns the
degenerate interval `(s, s)` around the single retained score; it never
raises an `InsufficientSamplesError` (no such error exists in the code). -/
theorem score_bootstrap_few_retained {α : Type} [Inhabited α]
    (f : List ℕ → List α → ℚ) (y_true : List ℕ) (y_pred : List α)
    (pvalue : ℚ) (draws : List (List ℕ)) :
    (retainedScores f y_true y_pred draws = [] →
      score_bootstrap (fun a b => (.ok (f a b) : Except Unit ℚ)) y_true y_pred pvalue draws
        = .error .indexError)
    ∧ (∀ s, retainedScores f y_true y_pred draws = [s] →
        0 < pvalue → pvalue < 1 →
        score_bootstrap (fun a b => (.ok (f a b) : Except Unit ℚ)) y_true y_pred pvalue draws
          = .ok (s, s)) := by
  constructor
  · intro h
    rw [score_bootstrap_eq]
    simp [sortedScores, h]
  · intro s h hp0 hp1
    have hs : sortedScores f y_true y_pred draws = [s] := by
      simp [sortedScores, h, List.insertionSort]
    rw [score_bootstrap_eq, hs]
    simp only [List.length_singleton, Nat.cast_one, mul_one]
    rw [Nat.floor_eq_zero.mpr hp1,
      Nat.floor_eq_zero.mpr (show (1 : ℚ) - pvalue < 1 by linarith)]
    rfl

/-- Witness for the corrected C2: at the counterexample input (one retained
resample, `pvalue = 1/20`) the degenerate interval `(1, 1)` is returned. -/
theorem score_bootstrap_few_retained_witness :
    score_bootstrap (fun a b => (.ok (precision_score a b) : Except Unit ℚ))
        [0, 1] [0, 1] (1/20) [[0, 0], [0, 1]] = .ok (1, 1) :=
  (score_bootstrap_few_retained precision_score [0, 1] [0, 1] (1/20)
      [[0, 0], [0, 1]]).2 1 (by with_unfolding_all decide) (by norm_num) (by norm_num)

/-- Claim C9 (confirmed).  For every error rate `0 < pvalue ≤ 1/2` and every
run that retains at least one score, both percentile positions
`⌊pvalue·M⌋` and `⌊(1-pvalue)·M⌋` are valid indices into the sorted score
array, and the returned pair satisfies `lower ≤ upper`. -/
theorem bootstrap_index_safe {α : Type} [Inhabited α]
    (f : List ℕ → List α → ℚ) (y_true : List ℕ) (y_pred : List α)
    (pvalue : ℚ) (draws : List (List ℕ))
    (hp0 : 0 < pvalue) (hp : pvalue ≤ 1/2)
    (hM : 1 ≤ (retainedScores f y_true y_pred draws).length) :
    ⌊pvalue * ((retainedScores f y_true y_pred draws).length : ℚ)⌋₊
        < (retainedScores f y_true y_pred draws).length
    ∧ ⌊(1 - pvalue) * ((retainedScores f y_true y_pred draws).length : ℚ)⌋₊
        < (retainedScores f y_true y_pred draws).length
    ∧ ∃ lo hi,
        score_bootstrap (fun a b => (.ok (f a b) : Except Unit ℚ))
            y_true y_pred pvalue draws = .ok (lo, hi)
        ∧ lo ≤ hi := by
  obtain ⟨h1, h2, h12⟩ := percentile_indices_lt pvalue
    (retainedScores f y_true y_pred draws).length hM hp0 hp
  refine ⟨h1, h2, _, _, score_bootstrap_ok_getD f y_true y_pred pvalue draws h1 h2, ?_⟩
  exact sortedScores_getD_mono f y_true y_pred draws h12
    (by rw [sortedScores_length]; exact h2)

/-- Witness for C9: a concrete run with two retained scores `[0, 1]` at
`pvalue = 1/4`; the returned interval is `(0, 1)` with `0 ≤ 1`. -/
theorem bootstrap_index_safe_witness :
    ∃ lo hi,
      score_bootstrap (fun a b => (.ok (recall_score a b) : Except Unit ℚ))
          [0, 1] [1, 1] (1/4) [[0, 1], [0, 0], [1, 0]] = .ok (lo, hi)
      ∧ lo ≤ hi :=
  (bootstrap_index_safe recall_score [0, 1] [1, 1] (1/4) [[0, 1], [0, 0], [1, 0]]
      (by norm_num) (by norm_num) (by decide)).2.2

/-- Counterexample to claim C3: a run whose only fold is missing its params
artifact (zero usable folds) fails with the generic division-by-zero error
raised by the final `total / count` — there is no `NoUsableFoldsError`
anywhere in the code (`EvalError` enumerates every failure these aggregators
can produce themselves). -/
theorem zero_usable_folds_division_cex :
    avg_cal_dis [⟨true, false, true, 0, 0, (0, 0), (0, 0), (0, 0), 0, 0, 0, 0, 0⟩]
        = .error .zeroDivisionError
    ∧ avg_report [⟨true, false, true, 0, 0, (0, 0), (0, 0), (0, 0), 0, 0, 0, 0, 0⟩]
        = .error .zeroDivisionError := by
  exact ⟨rfl, rfl⟩

/-- Claim C3 (corrected).  When zero folds pass the three-artifact completeness
check, every mean-based aggregation of `src/eval.py`
(calibration/discrimination, precision/recall/F1, ROC-AUC, confusion counts)
fails with the generic `ZeroDivisionError` from the final division by the
usable-fold count — an error, not a silent NaN, but not an explicit
`NoUsableFoldsError` (no such error exists in the code). -/
theorem zero_usable_folds_zero_division (folds : List Fold)
    (h : ∀ f ∈ folds, usable f = false) :
    avg_cal_dis folds = .error .zeroDivisionError
    ∧ avg_report folds = .error .zeroDivisionError
    ∧ avg_roc_auc folds = .error .zeroDivisionError
    ∧ avg_conf_mat folds = .error .zeroDivisionError := by
  have hf : folds.filter usable = [] := by
    rw [List.filter_eq_nil_iff]
    intro f hmem
    simp [h f hmem]
  have h1 : (calDisAcc folds).1 = 0 := by
    rw [calDisAcc_eq_filter, hf]; rfl
  have h2 : (reportAcc folds).1 = 0 := by
    rw [reportAcc_eq_filter, hf]; rfl
  have h3 : (rocAcc folds).1 = 0 := by
    rw [rocAcc_eq_filter, hf]; rfl
  have h4 : (confMatAcc folds).1 = 0 := by
    rw [confMatAcc_eq_filter, hf]; rfl
  refine ⟨?_, ?_, ?_, ?_⟩
  · simp [avg_cal_dis, h1]
  · simp [avg_report, h2]
  · simp [avg_roc_auc, h3]
  · simp [avg_conf_mat, h4]

/-- Witness for the corrected C3: all four aggregators raise the division
error on a single incomplete fold. -/
theorem zero_usable_folds_zero_division_witness :
    avg_cal_dis [⟨false, true, true, 0, 0, (0, 0), (0, 0), (0, 0), 0, 0, 0, 0, 0⟩]
        = .error .zeroDivisionError
    ∧ avg_report [⟨false, true, true, 0, 0, (0, 0), (0, 0), (0, 0), 0, 0, 0, 0, 0⟩]
        = .error .zeroDivisionError
    ∧ avg_roc_auc [⟨false, true, true, 0, 0, (0, 0), (0, 0), (0, 0), 0, 0, 0, 0, 0⟩]
        = .error .zeroDivisionError
    ∧ avg_conf_mat [⟨false, true, true, 0, 0, (0, 0), (0, 0), (0, 0), 0, 0, 0, 0, 0⟩]
        = .error .zeroDivisionError :=
  zero_usable_folds_zero_division _ (by decide)

/-- Claim C8 (confirmed).  A fold contributes to the per-fold aggregates —
one unit to the denominator count and its metric values to the running sums —
exactly when all three artifacts exist (`usable`); incomplete folds are
silently dropped.  Concretely, over 3 folds where the second is missing its
params artifact, the denominator is 2 (not 3) and the aggregate still
succeeds. -/
theorem fold_contributes_iff_complete :
    (∀ folds : List Fold,
      (reportAcc folds).1 = (folds.filter usable).length
      ∧ (reportAcc folds).2.1 = ((folds.filter usable).map Fold.prec).sum
      ∧ (reportAcc folds).2.2.1 = ((folds.filter usable).map Fold.recl).sum
      ∧ (reportAcc folds).2.2.2 = ((folds.filter usable).map Fold.f1v).sum
      ∧ (calDisAcc folds).1 = (folds.filter usable).length)
    ∧ (reportAcc
        [⟨true, true, true, 0, 0, (1, 1), (1, 1), (1, 1), 1, 1, 0, 0, 1⟩,
         ⟨true, false, true, 0, 0, (1, 1), (1, 1), (1, 1), 1, 1, 0, 0, 1⟩,
         ⟨true, true, true, 0, 0, (1, 0), (1, 0), (1, 0), 1, 1, 0, 0, 1⟩]).1 = 2
    ∧ (avg_report
        [⟨true, true, true, 0, 0, (1, 1), (1, 1), (1, 1), 1, 1, 0, 0, 1⟩,
         ⟨true, false, true, 0, 0, (1, 1), (1, 1), (1, 1), 1, 1, 0, 0, 1⟩,
         ⟨true, true, true, 0, 0, (1, 0), (1, 0), (1, 0), 1, 1, 0, 0, 1⟩]).isOk
        = true := by
  refine ⟨fun folds => ?_, rfl, rfl⟩
  rw [reportAcc_eq_filter, calDisAcc_eq_filter]
  exact ⟨rfl, rfl, rfl, rfl, rfl⟩

/-- Claim C6 (confirmed).  The derived binary prediction at threshold 0.5 is
1 iff the predicted probability strictly exceeds 0.5; in particular for
`true = [0, 1]`, `prob = [0.5, 0.5]` both cases are predicted 0, giving
precision 0, recall 0 and F1 0. -/
theorem binarize_strict_threshold :
    (∀ (p : List ℚ) (i : ℕ), (binarize p).getD i 0 = 1 ↔ (1 : ℚ)/2 < p.getD i 0)
    ∧ binarize [1/2, 1/2] = [0, 0]
    ∧ precision_score [0, 1] (binarize [1/2, 1/2]) = 0
    ∧ recall_score [0, 1] (binarize [1/2, 1/2]) = 0
    ∧ f1_score [0, 1] (binarize [1/2, 1/2]) = 0 := by
  refine ⟨?_, ?_, ?_, ?_, ?_⟩
  · intro p
    induction p with
    | nil =>
      intro i
      simp only [binarize, List.map_nil, List.getD_nil]
      norm_num
    | cons x xs ih =>
      intro i
      cases i with
      | zero =>
        simp only [binarize, List.map_cons, List.getD_cons_zero]
        by_cases h : (1 : ℚ)/2 < x
        · simp [h]
        · simp [h]
      | succ n =>
        simpa only [binarize, List.map_cons, List.getD_cons_succ] using ih n
  · with_unfolding_all decide
  · with_unfolding_all decide
  · with_unfolding_all decide
  · with_unfolding_all decide

theorem mappedLabels_mem (y : List ℕ) : ∀ x ∈ mappedLabels y, x = 0 ∨ x = 1 := by
  intro x hx
  unfold mappedLabels at hx
  cases hmax : y.max? with
  | none => rw [hmax] at hx; simp at hx
  | some m =>
    rw [hmax] at hx
    simp only [List.mem_map] at hx
    obtain ⟨v, _, hvx⟩ := hx
    by_cases h : v = m
    · right; rw [← hvx]; simp [h]
    · left; rw [← hvx]; simp [h]

theorem mappedLabels_dedup_le_two (y : List ℕ) :
    (mappedLabels y).dedup.length ≤ 2 := by
  classical
  have hnd : (mappedLabels y).dedup.Nodup := List.nodup_dedup _
  have hsub : (mappedLabels y).dedup.toFinset ⊆ ({0, 1} : Finset ℚ) := by
    intro x hx
    have hx2 : x ∈ mappedLabels y := List.mem_dedup.mp (List.mem_toFinset.mp hx)
    rcases mappedLabels_mem y x hx2 with h | h <;> simp [h]
  calc (mappedLabels y).dedup.length
      = (mappedLabels y).dedup.toFinset.card :=
        (List.toFinset_card_of_nodup hnd).symm
    _ ≤ ({0, 1} : Finset ℚ).card := Finset.card_le_card hsub
    _ ≤ 2 := le_of_eq (Finset.card_pair (by norm_num))

/-- Claim C7 (confirmed).  For parallel inputs, `brier_score_loss` succeeds
iff the labels mapped against the positive label (the maximum label present)
contain two distinct values and every probability lies in `[0, 1]`; on
success it returns the mean squared difference between the mapped labels
and the probabilities. -/
theorem brier_error_iff_invalid (y_true : List ℕ) (y_prob : List ℚ)
    (hlen : y_true.length = y_prob.length) :
    ((∃ v, brier_score_loss y_true y_prob = .ok v)
      ↔ (2 ≤ (mappedLabels y_true).dedup.length ∧ ∀ q ∈ y_prob, 0 ≤ q ∧ q ≤ 1))
    ∧ (∀ v, brier_score_loss y_true y_prob = .ok v →
        v = (((mappedLabels y_true).zip y_prob).map
              (fun t => (t.1 - t.2) ^ 2)).sum / (y_prob.length : ℚ)) := by
  unfold brier_score_loss
  by_cases h0 : y_true = []
  · -- y_true = []: `max()` on an empty array raises
    rw [if_pos h0]
    subst h0
    refine ⟨?_, by simp⟩
    simp only [mappedLabels, List.max?_nil, List.dedup_nil, List.length_nil]
    simp
  · rw [if_neg h0, if_neg (show ¬ y_true.length ≠ y_prob.length by simp [hlen])]
    by_cases h2 : (mappedLabels y_true).dedup.length ≠ 2
    · -- single mapped class
      rw [if_pos h2]
      refine ⟨?_, fun v hv => Except.noConfusion hv⟩
      have hle := mappedLabels_dedup_le_two y_true
      constructor
      · rintro ⟨v, hv⟩; exact Except.noConfusion hv
      · rintro ⟨hge, -⟩; omega
    · rw [if_neg h2]
      by_cases h3 : y_prob.any (fun q => decide (1 < q)) = true
      · -- a probability above 1
        rw [if_pos h3]
        refine ⟨?_, fun v hv => Except.noConfusion hv⟩
        constructor
        · rintro ⟨v, hv⟩; exact Except.noConfusion hv
        · rintro ⟨-, hall⟩
          simp only [List.any_eq_true, decide_eq_true_eq] at h3
          obtain ⟨q, hq, hq1⟩ := h3
          exact absurd (hall q hq).2 (not_le.mpr hq1)
      · rw [if_neg h3]
        by_cases h4 : y_prob.any (fun q => decide (q < 0)) = true
        · -- a probability below 0
          rw [if_pos h4]
          refine ⟨?_, fun v hv => Except.noConfusion hv⟩
          constructor
          · rintro ⟨v, hv⟩; exact Except.noConfusion hv
          · rintro ⟨-, hall⟩
            simp only [List.any_eq_true, decide_eq_true_eq] at h4
            obtain ⟨q, hq, hq0⟩ := h4
            exact absurd (hall q hq).1 (not_le.mpr hq0)
        · -- all checks pass
          rw [if_neg h4]
          simp only [List.any_eq_true, decide_eq_true_eq, not_exists, not_and,
            not_lt] at h3 h4
          refine ⟨?_, ?_⟩
          · constructor
            · intro _
              refine ⟨by omega, fun q hq => ⟨h4 q hq, h3 q hq⟩⟩
            · intro _
              exact ⟨_, rfl⟩
          · intro v hv
            cases hv
            rfl

/-- Witness for C7: valid two-class input `[0, 1]` with in-range
probabilities succeeds, while all-one-class input `[1, 1, 1]` raises for
probabilities that are otherwise perfectly valid. -/
theorem brier_error_iff_invalid_witness :
    (∃ v, brier_score_loss [0, 1] [1/10, 9/10] = .ok v)
    ∧ ¬ (∃ v, brier_score_loss [1, 1, 1] [0, 1/2, 1] = .ok v) := by
  constructor
  · exact (brier_error_iff_invalid [0, 1] [1/10, 9/10] rfl).1.mpr
      ⟨by with_unfolding_all decide, by with_unfolding_all decide⟩
  · intro hv
    exact absurd ((brier_error_iff_invalid [1, 1, 1] [0, 1/2, 1] rfl).1.mp hv)
      (by with_unfolding_all decide)

theorem cell_match_snd {s : Except BootError (ℚ × ℚ)} {point : ℚ}
    {c : (Option (ℚ × ℚ)) × ℚ}
    (h : (match s with
          | .ok lohi => some (some lohi, point)
          | .error _ => none) = some c) :
    c.2 = point := by
  cases s with
  | ok lohi =>
    simp only [Option.some.injEq] at h
    rw [← h]
  | error e => simp at h

/-- Claim C5 (confirmed).  For every bootstrap-mode score cell, the point
estimate reported alongside the interval is the metric of the original
(non-resampled) predictions: it is the same for any two draw sequences, and
equals the corresponding metric evaluated once on `y`/`p`/`pb`. -/
theorem point_estimate_independent_of_draws (cfg : ScoreConfig) (name : String)
    (y : List ℕ) (p : List ℚ) (pb : List ℕ)
    (hb : cfg.bootstrap = true)
    (block₁ block₂ : List (List ℕ)) (c₁ c₂ : (Option (ℚ × ℚ)) × ℚ)
    (h₁ : scoreCell cfg name y p pb block₁ = some c₁)
    (h₂ : scoreCell cfg name y p pb block₂ = some c₂) :
    c₁.2 = c₂.2
    ∧ (name = "precision" → c₁.2 = precision_score y pb)
    ∧ (name = "recall" → c₁.2 = recall_score y pb)
    ∧ (name = "f1" → c₁.2 = f1_score y pb)
    ∧ (name = "brier" → brier_score_loss y p = .ok c₁.2)
    ∧ (name = "auc" → roc_auc_score y p = .ok c₁.2) := by
  by_cases hP : name = "precision"
  · subst hP
    simp only [scoreCell, if_pos rfl, hb, if_true] at h₁ h₂
    have e₁ := cell_match_snd h₁
    have e₂ := cell_match_snd h₂
    refine ⟨e₁.trans e₂.symm, fun _ => e₁, ?_, ?_, ?_, ?_⟩ <;>
      · intro hc; exact absurd hc (by decide)
  · by_cases hR : name = "recall"
    · subst hR
      simp only [scoreCell, if_neg (by decide : ¬ ("recall" : String) = "precision"),
        if_pos rfl, hb, if_true] at h₁ h₂
      have e₁ := cell_match_snd h₁
      have e₂ := cell_match_snd h₂
      refine ⟨e₁.trans e₂.symm, ?_, fun _ => e₁, ?_, ?_, ?_⟩ <;>
        · intro hc; exact absurd hc (by decide)
    · by_cases hF : name = "f1"
      · subst hF
        simp only [scoreCell, if_neg (by decide : ¬ ("f1" : String) = "precision"),
          if_neg (by decide : ¬ ("f1" : String) = "recall"),
          if_pos rfl, hb, if_true] at h₁ h₂
        have e₁ := cell_match_snd h₁
        have e₂ := cell_match_snd h₂
        refine ⟨e₁.trans e₂.symm, ?_, ?_, fun _ => e₁, ?_, ?_⟩ <;>
          · intro hc; exact absurd hc (by decide)
      · by_cases hB : name = "brier"
        · subst hB
          simp only [scoreCell, if_neg (by decide : ¬ ("brier" : String) = "precision"),
            if_neg (by decide : ¬ ("brier" : String) = "recall"),
            if_neg (by decide : ¬ ("brier" : String) = "f1"),
            if_pos rfl, hb, if_true] at h₁ h₂
          cases hbr : brier_score_loss y p with
          | error e => rw [hbr] at h₁; simp at h₁
          | ok point =>
            rw [hbr] at h₁ h₂
            have e₁ := cell_match_snd h₁
            have e₂ := cell_match_snd h₂
            refine ⟨e₁.trans e₂.symm, ?_, ?_, ?_, fun _ => by rw [e₁], ?_⟩ <;>
              · intro hc; exact absurd hc (by decide)
        · by_cases hA : name = "auc"
          · subst hA
            simp only [scoreCell, if_neg (by decide : ¬ ("auc" : String) = "precision"),
              if_neg (by decide : ¬ ("auc" : String) = "recall"),
              if_neg (by decide : ¬ ("auc" : String) = "f1"),
              if_neg (by decide : ¬ ("auc" : String) = "brier"),
              if_pos rfl, hb, if_true] at h₁ h₂
            cases hroc : roc_auc_score y p with
            | error e => rw [hroc] at h₁; simp at h₁
            | ok point =>
              rw [hroc] at h₁ h₂
              have e₁ := cell_match_snd h₁
              have e₂ := cell_match_snd h₂
              refine ⟨e₁.trans e₂.symm, ?_, ?_, ?_, ?_, fun _ => by rw [e₁]⟩ <;>
                · intro hc; exact absurd hc (by decide)
          · simp only [scoreCell, if_neg hP, if_neg hR, if_neg hF, if_neg hB,
              if_neg hA] at h₁
            exact absurd h₁ (by simp)

/-- Witness for C5: a concrete bootstrap-mode precision cell whose point
estimate equals the precision of the original predictions. -/
theorem point_estimate_independent_witness :
    scoreCell ⟨[], ["nnet"], [], 9/10, ["precision"], true, 1/4⟩ "precision"
        [0, 1] [1/10, 9/10] (binarize [1/10, 9/10]) [[0, 1]]
      = some (some (1, 1), 1)
    ∧ ((some (1, 1), (1 : ℚ)) : (Option (ℚ × ℚ)) × ℚ).2
        = precision_score [0, 1] (binarize [1/10, 9/10]) := by
  constructor
  · with_unfolding_all decide
  · exact (point_estimate_independent_of_draws
      ⟨[], ["nnet"], [], 9/10, ["precision"], true, 1/4⟩ "precision"
      [0, 1] [1/10, 9/10] (binarize [1/10, 9/10]) rfl
      [[0, 1]] [[0, 1]] (some (1, 1), 1) (some (1, 1), 1)
      (by with_unfolding_all decide) (by with_unfolding_all decide)).2.1 rfl

/-- Counterexample to claim C4: with the default threshold `f1_min = 0.9`, a
predictor whose F1 exactly equals `0.9` is *included* (a score line is
emitted for it), because the source tests `f1_min <= f1_mean`, not a strict
inequality. -/
theorem f1_threshold_equality_included_cex :
    processEntry ⟨[], ["nnet"], [], 9/10, ["precision"], false, 1/20⟩
        ⟨["models", "nnet"], "nnet", 9/10, [(0, 1/10), (1, 9/10)], []⟩
      = .emitted [(none, 1)] := by
  with_unfolding_all decide

/-- Claim C4 (corrected).  A predictor passing the pre-filters (not excluded,
known index name, extra tests present) with non-empty aggregated predictions
is included in the pooled scoring iff its F1 is *greater than or equal to*
the threshold: it is skipped iff `f1_mean < f1_min`, so an F1 exactly equal
to the threshold is included, not excluded. -/
theorem f1_threshold_inclusive (cfg : ScoreConfig) (e : RankEntry)
    (h1 : e.pred ∉ cfg.excluded_predictors)
    (h2 : e.pred ∈ cfg.index_names)
    (h3 : cfg.extra_tests.any (fun ex => !(e.mdl_pieces.contains ex)) = false)
    (h4 : e.predictions ≠ []) :
    (processEntry cfg e = .skipped ↔ e.f1_mean < cfg.f1_min) := by
  unfold processEntry
  rw [if_neg h1, if_neg (not_not_intro h2), if_neg (by rw [h3]; exact Bool.false_ne_true)]
  by_cases hf : cfg.f1_min ≤ e.f1_mean
  · rw [if_pos hf]
    have hne : ¬ (e.predictions.map Prod.fst).length = 0 := by
      simpa [List.length_eq_zero] using h4
    rw [if_neg hne]
    constructor
    · intro hcontr
      rcases hsc : scoreCells cfg (e.predictions.map Prod.fst)
          (e.predictions.map Prod.snd)
          (binarize (e.predictions.map Prod.snd)) cfg.scores e.draws with _ | cells <;>
        simp [hsc] at hcontr
    · intro hlt
      exact absurd hlt (not_lt.mpr hf)
  · rw [if_neg hf]
    simp [not_le.mp hf]

/-- Witness for the corrected C4: with threshold and F1 both `0.9`, the
entry is not skipped (the iff reduces to the false `0.9 < 0.9`). -/
theorem f1_threshold_inclusive_witness :
    (processEntry ⟨[], ["nnet"], [], 9/10, ["precision"], false, 1/20⟩
        ⟨["models", "nnet"], "nnet", 9/10, [(0, 1/10), (1, 9/10)], []⟩
      = .skipped ↔ (9/10 : ℚ) < 9/10) :=
  f1_threshold_inclusive _ _ (by decide) (by decide) (by decide) (by decide)

/-- Claim C10 (confirmed).  A qualifying entry whose aggregated predictions
are empty is silently skipped by `if len(y) == 0: continue`: no score line
is emitted for it, no error is raised, and the loop continues with the
remaining entries. -/
theorem empty_predictions_skipped (cfg : ScoreConfig) (e : RankEntry)
    (h1 : e.pred ∉ cfg.excluded_predictors)
    (h2 : e.pred ∈ cfg.index_names)
    (h3 : cfg.extra_tests.any (fun ex => !(e.mdl_pieces.contains ex)) = false)
    (h5 : cfg.f1_min ≤ e.f1_mean)
    (h6 : e.predictions = []) :
    processEntry cfg e = .skipped
    ∧ ∀ rest, score_lines cfg (e :: rest) = score_lines cfg rest := by
  have hskip : processEntry cfg e = .skipped := by
    unfold processEntry
    rw [if_neg h1, if_neg (not_not_intro h2), if_neg (by rw [h3]; exact Bool.false_ne_true), if_pos h5, h6]
    rfl
  refine ⟨hskip, fun rest => ?_⟩
  simp [score_lines, hskip]

/-- Witness for C10: an entry with F1 above the threshold but an empty
prediction file contributes nothing, and the following entry is still
processed. -/
theorem empty_predictions_skipped_witness :
    score_lines ⟨[], ["nnet"], [], 9/10, ["precision"], false, 1/20⟩
        [⟨["m"], "nnet", 19/20, [], []⟩,
         ⟨["m"], "nnet", 9/10, [(0, 1/10), (1, 9/10)], []⟩]
      = score_lines ⟨[], ["nnet"], [], 9/10, ["precision"], false, 1/20⟩
        [⟨["m"], "nnet", 9/10, [(0, 1/10), (1, 9/10)], []⟩] :=
  (empty_predictions_skipped ⟨[], ["nnet"], [], 9/10, ["precision"], false, 1/20⟩
      ⟨["m"], "nnet", 19/20, [], []⟩ (by decide) (by decide) (by decide)
      (by with_unfolding_all decide) rfl).2 _

end EbolaPredictor
